import Mathlib

/-!
Verification development for the MST benchmark-comparison plotting pipeline
(`plot_time_compexity.py`).

The script loads a CSV of per-run benchmark records (columns `Graph`,
`Algorithm`, `Vertices`, `Edges`, `Time(ms)`, `Operations`, `MST Cost`),
derives comparative metrics, and renders reports.  We embed the data model
and the numeric/ordering logic shallowly:

* a pandas `DataFrame` row becomes a `Record`; a frame is a `List Record`
  (row order preserved, as in pandas);
* graph identifiers are modelled as `Nat` (the script only groups and
  compares them for equality; group keys are enumerated in ascending order,
  as `groupby` does with its default `sort=True`);
* the `Algorithm` column is the two-value enum used by every filter
  (`df[df['Algorithm'] == 'Prim']` / `'Kruskal'`);
* float quantities (`Time(ms)`, `Operations`, `MST Cost`) are modelled
  exactly as rationals;
* `sort_values('Vertices')` is modelled as a stable sort by the `Vertices`
  key (numpy falls back to a stable insertion sort on the small arrays this
  script processes);
* fallible steps (`.values[0]` on an empty selection raising `IndexError`,
  `zip(*[])` unpacking raising `ValueError`) return `Except String`.
-/

inductive Algorithm where
  | Prim
  | Kruskal
deriving DecidableEq, Repr

/-- One row of the loaded CSV. -/
structure Record where
  graph : Nat
  algorithm : Algorithm
  vertices : Int
  edges : Int
  time : ℚ
  operations : ℚ
  mstCost : ℚ
deriving DecidableEq, Repr

/-- The row filter `df['Algorithm'] == 'Prim'`. -/
def isPrim (r : Record) : Bool :=
  match r.algorithm with
  | Algorithm.Prim => true
  | Algorithm.Kruskal => false

/-- The row filter `df['Algorithm'] == 'Kruskal'`. -/
def isKruskal (r : Record) : Bool :=
  match r.algorithm with
  | Algorithm.Prim => false
  | Algorithm.Kruskal => true

/-- `prim_data = df[df['Algorithm'] == 'Prim']` (lines 31, 61, 86, 166, 191, 255). -/
def prim_data (df : List Record) : List Record := df.filter isPrim

/-- `kruskal_data = df[df['Algorithm'] == 'Kruskal']` (lines 32, 62, 87, 167, 192, 256). -/
def kruskal_data (df : List Record) : List Record := df.filter isKruskal

/-- Key order used by `sort_values('Vertices')`. -/
def vertLe (a b : Record) : Prop := a.vertices ≤ b.vertices

instance : DecidableRel vertLe := fun a b => by unfold vertLe; infer_instance

instance : IsTotal Record vertLe := ⟨fun a b => Int.le_total a.vertices b.vertices⟩

instance : IsTrans Record vertLe := ⟨fun _ _ _ h1 h2 => le_trans h1 h2⟩

/-- `frame.sort_values('Vertices')` (lines 35-36, 61-62, 86-87, 191-192). -/
def sort_values (l : List Record) : List Record := l.insertionSort vertLe

/-- The `Time(ms)` column of a frame. -/
def timesOf (l : List Record) : List ℚ := l.map (fun r => r.time)

/-- The `MST Cost` column of a frame. -/
def costsOf (l : List Record) : List ℚ := l.map (fun r => r.mstCost)

/-- The per-algorithm sub-frame of a dataset. -/
def algData (df : List Record) : Algorithm → List Record
  | Algorithm.Prim => prim_data df
  | Algorithm.Kruskal => kruskal_data df

/-- The per-algorithm line series plotted by `plot_execution_time_comparison`
(lines 39-42): `(Vertices, Time(ms))` points of the sub-frame after
`sort_values('Vertices')`. -/
def timeSeries (df : List Record) (a : Algorithm) : List (Int × ℚ) :=
  (sort_values (algData df a)).map (fun r => (r.vertices, r.time))

/-- Default relative tolerance of `np.allclose`. -/
def rtol : ℚ := 1 / 100000

/-- Default absolute tolerance of `np.allclose`. -/
def atol : ℚ := 1 / 100000000

/-- `np.isclose(a, b)` with default tolerances: `|a - b| <= atol + rtol * |b|`. -/
def isclose (a b : ℚ) : Bool := decide (|a - b| ≤ atol + rtol * |b|)

/-- `np.allclose` on two equal-length 1-D arrays: every aligned pair is close.
(The script only ever passes the two algorithms' cost columns.) -/
def allclose (a b : List ℚ) : Bool := (a.zip b).all (fun p => isclose p.1 p.2)

/-- The correctness annotation test of `plot_mst_cost_verification` (line 102):
`np.allclose` over both cost columns after `sort_values('Vertices')`. -/
def mst_cost_verification_match (df : List Record) : Bool :=
  allclose (costsOf (sort_values (prim_data df))) (costsOf (sort_values (kruskal_data df)))

/-- `costs_match` of `generate_summary_statistics` (line 285): `np.allclose`
over both cost columns in extraction (unsorted) row order. -/
def costs_match (df : List Record) : Bool :=
  allclose (costsOf (prim_data df)) (costsOf (kruskal_data df))

/-- `prim_wins = sum(prim_data['Time(ms)'].values < kruskal_data['Time(ms)'].values)`
(line 276): elementwise comparison of the two time arrays in extraction order. -/
def prim_wins (df : List Record) : Nat :=
  ((timesOf (prim_data df)).zip (timesOf (kruskal_data df))).countP
    (fun p => decide (p.1 < p.2))

/-- `kruskal_wins = sum(kruskal_data['Time(ms)'].values < prim_data['Time(ms)'].values)`
(line 277). -/
def kruskal_wins (df : List Record) : Nat :=
  ((timesOf (kruskal_data df)).zip (timesOf (prim_data df))).countP
    (fun p => decide (p.1 < p.2))

/-- Number of exactly tied aligned time pairs (not printed by the script;
needed to state the spec's win-count invariant). -/
def time_ties (df : List Record) : Nat :=
  ((timesOf (prim_data df)).zip (timesOf (kruskal_data df))).countP
    (fun p => decide (p.1 = p.2))

/-- `Total Graphs` reported for Prim (line 266): `len(prim_data)`. -/
def total_graphs (df : List Record) : Nat := (prim_data df).length

/-- `df['Edges'] / (df['Vertices'] * (df['Vertices'] - 1) / 2)` (line 164),
per record. -/
def edge_density (r : Record) : ℚ :=
  (r.edges : ℚ) / ((r.vertices : ℚ) * ((r.vertices : ℚ) - 1) / 2)

/-- The group keys enumerated by `df.groupby('Graph')` (line 120): the distinct
graph identifiers in ascending key order (`groupby` sorts keys by default). -/
def graphKeys (df : List Record) : List Nat :=
  ((df.map (fun r => r.graph)).dedup).insertionSort (fun a b => a ≤ b)

/-- The rows of one group: `group` for key `k`, in original row order. -/
def groupOf (df : List Record) (k : Nat) : List Record :=
  df.filter (fun r => r.graph == k)

/-- `group['Vertices'].values[0]` (line 127); the group of a genuine key is
never empty, the default is unreachable there. -/
def headVertices (l : List Record) : Int :=
  ((l.head?).map (fun r => r.vertices)).getD 0

/-- `group[group['Algorithm'] == 'Prim']['Time(ms)'].values[0]` selects the
first Prim row of the group, if any (line 125). -/
def firstPrim (group : List Record) : Option Record := (group.filter isPrim).head?

/-- `group[group['Algorithm'] == 'Kruskal']['Time(ms)'].values[0]` selects the
first Kruskal row of the group, if any (line 126). -/
def firstKruskal (group : List Record) : Option Record := (group.filter isKruskal).head?

/-- The `for graph_name, group in grouped:` loop of `plot_performance_ratio`
(lines 124-132).  `.values[0]` on an empty selection raises `IndexError`;
a group passing the `prim_time > 0` guard appends `(v, kruskal_time / prim_time)`. -/
def ratioLoop (df : List Record) : List Nat → Except String (List (Int × ℚ))
  | [] => Except.ok []
  | k :: ks =>
    match firstPrim (groupOf df k), firstKruskal (groupOf df k) with
    | some p, some kr =>
      (ratioLoop df ks).map (fun rest =>
        if 0 < p.time then (headVertices (groupOf df k), kr.time / p.time) :: rest
        else rest)
    | _, _ => Except.error "IndexError"

/-- Python tuple order on the `(vertices, ratio)` pairs, as used by
`sorted(zip(vertices, ratios))` (line 135). -/
def pairLe (a b : Int × ℚ) : Prop := a.1 < b.1 ∨ (a.1 = b.1 ∧ a.2 ≤ b.2)

instance : DecidableRel pairLe := fun a b => by unfold pairLe; infer_instance

instance : IsTotal (Int × ℚ) pairLe := by
  constructor
  intro a b
  rcases lt_trichotomy a.1 b.1 with h | h | h
  · exact Or.inl (Or.inl h)
  · rcases le_total a.2 b.2 with h2 | h2
    · exact Or.inl (Or.inr ⟨h, h2⟩)
    · exact Or.inr (Or.inr ⟨h.symm, h2⟩)
  · exact Or.inr (Or.inl h)

instance : IsTrans (Int × ℚ) pairLe := by
  constructor
  intro a b c hab hbc
  rcases hab with h1 | ⟨h1, h1'⟩
  · rcases hbc with h2 | ⟨h2, _⟩
    · exact Or.inl (h1.trans h2)
    · exact Or.inl (h2 ▸ h1)
  · rcases hbc with h2 | ⟨h2, h2'⟩
    · exact Or.inl (h1 ▸ h2)
    · exact Or.inr ⟨h1.trans h2, h1'.trans h2'⟩

/-- `sorted(zip(vertices, ratios))` (line 135). -/
def sortPairs (l : List (Int × ℚ)) : List (Int × ℚ) := l.insertionSort pairLe

/-- The data series produced by `plot_performance_ratio` (lines 119-136): the
group loop, the sort by vertex count, and the `vertices, ratios = zip(*sorted_pairs)`
unpacking, which raises `ValueError` when the pair list is empty. -/
def plot_performance_ratio (df : List Record) : Except String (List Int × List ℚ) :=
  match ratioLoop df (graphKeys df) with
  | Except.error e => Except.error e
  | Except.ok pairs =>
    match sortPairs pairs with
    | [] => Except.error "ValueError"
    | p :: ps => Except.ok ((p :: ps).map Prod.fst, (p :: ps).map Prod.snd)

/-- The contribution of one group to the ratio series, when no `IndexError`
occurs: `some (v, kruskal_time / prim_time)` iff the guard `prim_time > 0` passes. -/
def groupRatio? (df : List Record) (k : Nat) : Option (Int × ℚ) :=
  match firstPrim (groupOf df k), firstKruskal (groupOf df k) with
  | some p, some kr =>
    if 0 < p.time then some (headVertices (groupOf df k), kr.time / p.time) else none
  | _, _ => none

/-- A group holds at least one record of each algorithm, so both `.values[0]`
accesses of the loop body succeed. -/
def groupComplete (df : List Record) (k : Nat) : Prop :=
  (firstPrim (groupOf df k)).isSome ∧ (firstKruskal (groupOf df k)).isSome

instance (df : List Record) (k : Nat) : Decidable (groupComplete df k) := by
  unfold groupComplete; infer_instance

/-- Every group of the dataset is complete (the data-model invariant, relaxed
to what the loop actually needs). -/
def completeGroups (df : List Record) : Prop :=
  ∀ k ∈ graphKeys df, groupComplete df k

instance (df : List Record) : Decidable (completeGroups df) := by
  unfold completeGroups; infer_instance

/-- Whether a group passes the `prim_time > 0` guard (line 129). -/
def primTimePos (df : List Record) (k : Nat) : Bool :=
  match firstPrim (groupOf df k) with
  | some p => decide (0 < p.time)
  | none => false

/-- The Kruskal record with a given graph identity (the join keyed by `Graph`
that §9 of the design notes recommends; used to state when positional pairing
is correct). -/
def kruskalByGraph (df : List Record) (g : Nat) : Option Record :=
  (kruskal_data df).find? (fun r => r.graph == g)

/-- The Prim record with a given graph identity. -/
def primByGraph (df : List Record) (g : Nat) : Option Record :=
  (prim_data df).find? (fun r => r.graph == g)

/-- Prim wins counted by graph identity instead of by row position: a Prim
record counts iff the Kruskal record of the same graph is strictly slower. -/
def prim_wins_by_graph (df : List Record) : Nat :=
  (prim_data df).countP (fun r =>
    match kruskalByGraph df r.graph with
    | some k => decide (r.time < k.time)
    | none => false)

/-- Kruskal wins counted by graph identity instead of by row position. -/
def kruskal_wins_by_graph (df : List Record) : Nat :=
  (kruskal_data df).countP (fun r =>
    match primByGraph df r.graph with
    | some p => decide (r.time < p.time)
    | none => false)

/-- Outcome of `pd.read_csv(filepath)` inside `load_csv_data` (lines 16-23):
either a parsed dataset or the exception message of a missing, unreadable or
unparseable file. -/
inductive LoadResult where
  | success (df : List Record)
  | failure (msg : String)

/-- `load_csv_data` (lines 14-23): on success returns the dataset and prints a
confirmation, on any exception prints a diagnostic and returns `None`. -/
def load_csv_data : LoadResult → Option (List Record) × String
  | LoadResult.success df => (some df, "✓ Loaded")
  | LoadResult.failure e => (none, "✗ Error loading: " ++ e)

/-- Artifact files written by the sequential generator chain of `main`
(lines 324-331) on a loaded dataset.  The generators before
`plot_performance_ratio` are modelled as succeeding; a failure inside
`plot_performance_ratio` aborts the remaining generators (the `try` block
catches at the end, after the run is abandoned). -/
def generated_artifacts (df : List Record) : List String :=
  ["execution_time_comparison.png", "operations_comparison.png",
   "mst_cost_verification.png"] ++
    match plot_performance_ratio df with
    | Except.ok _ =>
      ["performance_ratio.png", "edge_density_impact.png",
       "comprehensive_comparison.png", "summary_statistics.txt"]
    | Except.error _ => []

/-- `main` after argument parsing (lines 316-331): load, return immediately on
`None` (lines 317-318), otherwise run the generator chain.  The result is the
list of artifact files written. -/
def main_artifacts (r : LoadResult) : List String :=
  match (load_csv_data r).1 with
  | none => []
  | some df => generated_artifacts df

/-- Scenario A of the spec: two graphs, `Vertices = {10, 20}`, Prim times
`{5, 12}` ms, Kruskal times `{4, 9}` ms, identical MST costs `{100, 250}`. -/
def scenarioA : List Record :=
  [⟨1, Algorithm.Prim, 10, 20, 5, 150, 100⟩,
   ⟨1, Algorithm.Kruskal, 10, 20, 4, 140, 100⟩,
   ⟨2, Algorithm.Prim, 20, 50, 12, 400, 250⟩,
   ⟨2, Algorithm.Kruskal, 20, 50, 9, 380, 250⟩]

/-- Scenario B of the spec: graph 2 is present for Prim but missing for
Kruskal. -/
def scenarioB : List Record :=
  [⟨1, Algorithm.Prim, 10, 20, 5, 150, 100⟩,
   ⟨1, Algorithm.Kruskal, 10, 20, 4, 140, 100⟩,
   ⟨2, Algorithm.Prim, 20, 50, 12, 400, 250⟩]

/-- Two Prim-only rows of distinct graphs sharing the vertex count 10. -/
def dfTie1 : List Record :=
  [⟨1, Algorithm.Prim, 10, 5, 1, 10, 30⟩,
   ⟨2, Algorithm.Prim, 10, 5, 2, 11, 31⟩]

/-- The same two rows in the opposite input order. -/
def dfTie2 : List Record :=
  [⟨2, Algorithm.Prim, 10, 5, 2, 11, 31⟩,
   ⟨1, Algorithm.Prim, 10, 5, 1, 10, 30⟩]

/-- A complete one-graph dataset whose Prim time is zero. -/
def dfZeroPrim : List Record :=
  [⟨1, Algorithm.Prim, 10, 20, 0, 150, 100⟩,
   ⟨1, Algorithm.Kruskal, 10, 20, 4, 140, 100⟩]

lemma ratioLoop_ok (df : List Record) :
    ∀ ks : List Nat, (∀ k ∈ ks, groupComplete df k) →
      ratioLoop df ks = Except.ok (ks.filterMap (groupRatio? df)) := by
  intro ks
  induction ks with
  | nil => intro _; rfl
  | cons k ks ih =>
    intro h
    have hk := h k (List.mem_cons_self k ks)
    obtain ⟨p, hp⟩ := Option.isSome_iff_exists.mp hk.1
    obtain ⟨kr, hkr⟩ := Option.isSome_iff_exists.mp hk.2
    have hrest := ih (fun x hx => h x (List.mem_cons_of_mem _ hx))
    by_cases hg : 0 < p.time
    · simp [ratioLoop, hp, hkr, hrest, List.filterMap_cons, groupRatio?, hg, Except.map]
    · simp [ratioLoop, hp, hkr, hrest, List.filterMap_cons, groupRatio?, hg, Except.map]

lemma ratioLoop_error (df : List Record) :
    ∀ ks : List Nat, (∃ k ∈ ks, ¬ groupComplete df k) →
      ratioLoop df ks = Except.error "IndexError" := by
  intro ks
  induction ks with
  | nil => rintro ⟨k, hk, -⟩; cases hk
  | cons k ks ih =>
    rintro ⟨x, hx, hbad⟩
    by_cases hk : groupComplete df k
    · obtain ⟨p, hp⟩ := Option.isSome_iff_exists.mp hk.1
      obtain ⟨kr, hkr⟩ := Option.isSome_iff_exists.mp hk.2
      have hx' : x ∈ ks := by
        rcases List.mem_cons.mp hx with rfl | h
        · exact absurd hk hbad
        · exact h
      have herr := ih ⟨x, hx', hbad⟩
      simp [ratioLoop, hp, hkr, herr, Except.map]
    · rcases not_and_or.mp hk with h1 | h2
      · have hp : firstPrim (groupOf df k) = none := Option.not_isSome_iff_eq_none.mp h1
        simp [ratioLoop, hp]
      · have hkr : firstKruskal (groupOf df k) = none := Option.not_isSome_iff_eq_none.mp h2
        cases hp : firstPrim (groupOf df k) <;> simp [ratioLoop, hp, hkr]

lemma length_filterMap_eq_countP {α β : Type} (f : α → Option β) :
    ∀ l : List α, (l.filterMap f).length = l.countP (fun a => (f a).isSome) := by
  intro l
  induction l with
  | nil => rfl
  | cons a l ih =>
    cases hf : f a <;> simp [List.filterMap_cons, hf, List.countP_cons, ih]

lemma groupRatio_isSome (df : List Record) (k : Nat) (h : groupComplete df k) :
    (groupRatio? df k).isSome = primTimePos df k := by
  obtain ⟨p, hp⟩ := Option.isSome_iff_exists.mp h.1
  obtain ⟨kr, hkr⟩ := Option.isSome_iff_exists.mp h.2
  by_cases hg : 0 < p.time <;> simp [groupRatio?, primTimePos, hp, hkr, hg]

/-- C2: on a dataset whose groups are all complete, the ratio loop succeeds,
every group whose first Prim time is positive contributes exactly the entry
`(v, kruskal_time / prim_time)`, every entry of the series arises that way
from some group (so every ratio is a quotient with positive denominator and
no NaN or infinite entry can appear), and the number of entries is exactly
the number of groups passing the `prim_time > 0` guard (so each group with
Prim time 0 is excluded). -/
theorem zero_prim_time_excluded (df : List Record) (h : completeGroups df) :
    ∃ l, ratioLoop df (graphKeys df) = Except.ok l ∧
      (∀ k ∈ graphKeys df, ∀ p, firstPrim (groupOf df k) = some p → 0 < p.time →
        ∀ kr, firstKruskal (groupOf df k) = some kr →
          (headVertices (groupOf df k), kr.time / p.time) ∈ l) ∧
      (∀ x ∈ l, ∃ k ∈ graphKeys df, ∃ p kr, firstPrim (groupOf df k) = some p ∧
        firstKruskal (groupOf df k) = some kr ∧ 0 < p.time ∧
        x = (headVertices (groupOf df k), kr.time / p.time)) ∧
      l.length = (graphKeys df).countP (fun k => primTimePos df k) := by
  refine ⟨(graphKeys df).filterMap (groupRatio? df), ratioLoop_ok df _ h, ?_, ?_, ?_⟩
  · intro k hk p hp hpos kr hkr
    exact List.mem_filterMap.mpr ⟨k, hk, by simp [groupRatio?, hp, hkr, hpos]⟩
  · intro x hx
    obtain ⟨k, hk, hsome⟩ := List.mem_filterMap.mp hx
    obtain ⟨p, hp⟩ := Option.isSome_iff_exists.mp (h k hk).1
    obtain ⟨kr, hkr⟩ := Option.isSome_iff_exists.mp (h k hk).2
    by_cases hg : 0 < p.time
    · refine ⟨k, hk, p, kr, hp, hkr, hg, ?_⟩
      simp only [groupRatio?, hp, hkr, if_pos hg] at hsome
      exact (Option.some_inj.mp hsome).symm
    · simp [groupRatio?, hp, hkr, hg] at hsome
  · rw [length_filterMap_eq_countP]
    exact List.countP_congr (fun k hk => by
      rw [groupRatio_isSome df k (h k hk)])

/-- Witness for C2 at Scenario A's dataset. -/
theorem zero_prim_time_excluded_witness :
    completeGroups scenarioA ∧
      (∃ l, ratioLoop scenarioA (graphKeys scenarioA) = Except.ok l ∧
        (∀ k ∈ graphKeys scenarioA, ∀ p, firstPrim (groupOf scenarioA k) = some p →
          0 < p.time → ∀ kr, firstKruskal (groupOf scenarioA k) = some kr →
            (headVertices (groupOf scenarioA k), kr.time / p.time) ∈ l) ∧
        (∀ x ∈ l, ∃ k ∈ graphKeys scenarioA, ∃ p kr,
          firstPrim (groupOf scenarioA k) = some p ∧
          firstKruskal (groupOf scenarioA k) = some kr ∧ 0 < p.time ∧
          x = (headVertices (groupOf scenarioA k), kr.time / p.time)) ∧
        l.length = (graphKeys scenarioA).countP (fun k => primTimePos scenarioA k)) :=
  ⟨by decide, zero_prim_time_excluded scenarioA (by decide)⟩

/-- C10: when every group of a complete dataset fails the `prim_time > 0`
guard (in particular when the dataset is empty), the pair list is empty and
`vertices, ratios = zip(*sorted_pairs)` raises instead of producing an empty
ratio report. -/
theorem empty_ratio_list_raises (df : List Record) (h : completeGroups df)
    (hz : ∀ k ∈ graphKeys df, primTimePos df k = false) :
    plot_performance_ratio df = Except.error "ValueError" := by
  have hok := ratioLoop_ok df (graphKeys df) h
  have hnil : (graphKeys df).filterMap (groupRatio? df) = [] := by
    rw [List.filterMap_eq_nil_iff]
    intro k hk
    rw [← Option.not_isSome_iff_eq_none, groupRatio_isSome df k (h k hk), hz k hk]
    exact Bool.false_ne_true
  unfold plot_performance_ratio
  rw [hok, hnil]
  rfl

/-- Witness for C10 at the one-graph dataset whose Prim time is zero. -/
theorem empty_ratio_list_raises_witness :
    completeGroups dfZeroPrim ∧
      (∀ k ∈ graphKeys dfZeroPrim, primTimePos dfZeroPrim k = false) ∧
      plot_performance_ratio dfZeroPrim = Except.error "ValueError" :=
  ⟨by decide, by decide, empty_ratio_list_raises dfZeroPrim (by decide) (by decide)⟩

/-- C1 as stated is false: on Scenario B (graph 2 present for Prim, missing
for Kruskal) the ratio computation does not skip the malformed group — the
`.values[0]` access raises an `IndexError`, so no ratio series is produced at
all, not even for the well-formed graph 1. -/
theorem missing_kruskal_crashes_ratio :
    plot_performance_ratio scenarioB = Except.error "IndexError" := by
  simp [plot_performance_ratio, ratioLoop, graphKeys, groupOf, headVertices, sortPairs,
    List.insertionSort, List.orderedInsert, isPrim, isKruskal, List.dedup, List.pwFilter,
    pairLe, firstPrim, firstKruskal, scenarioB, Except.map]

/-- C1 amended: a dataset containing a group that lacks a record of either
algorithm makes the whole performance-ratio computation fail with the
`IndexError` of the empty `.values[0]` access; the malformed group is not
skipped and no well-formed group contributes anything. -/
theorem incomplete_group_aborts_ratio (df : List Record)
    (h : ∃ k ∈ graphKeys df, ¬ groupComplete df k) :
    plot_performance_ratio df = Except.error "IndexError" := by
  unfold plot_performance_ratio
  rw [ratioLoop_error df (graphKeys df) h]

/-- Witness for the amended C1 at Scenario B. -/
theorem incomplete_group_aborts_ratio_witness :
    (∃ k ∈ graphKeys scenarioB, ¬ groupComplete scenarioB k) ∧
      plot_performance_ratio scenarioB = Except.error "IndexError" :=
  ⟨by decide, incomplete_group_aborts_ratio scenarioB (by decide)⟩

/-- C3, Scenario A: two graphs with `Vertices = {10, 20}`, Prim times
`{5, 12}`, Kruskal times `{4, 9}`, identical costs `{100, 250}`.  The ratio
series, ordered by ascending vertex count, is `{4/5, 3/4}` (= `{0.8, 0.75}`),
both cost checks report a match, and the summary counts Kruskal faster twice
and Prim never. -/
theorem scenarioA_reports :
    plot_performance_ratio scenarioA = Except.ok ([10, 20], [4/5, 3/4]) ∧
    mst_cost_verification_match scenarioA = true ∧
    costs_match scenarioA = true ∧
    kruskal_wins scenarioA = 2 ∧ prim_wins scenarioA = 0 := by
  refine ⟨?_, ?_, ?_, ?_, ?_⟩
  · simp [plot_performance_ratio, ratioLoop, graphKeys, groupOf, headVertices, sortPairs,
      List.insertionSort, List.orderedInsert, isPrim, isKruskal, List.dedup, List.pwFilter,
      pairLe, firstPrim, firstKruskal, scenarioA, Except.map]
    norm_num
  · simp [mst_cost_verification_match, allclose, isclose, costsOf, sort_values, vertLe,
      prim_data, kruskal_data, isPrim, isKruskal, List.insertionSort, List.orderedInsert,
      scenarioA, atol, rtol]
    norm_num
  · simp [costs_match, allclose, isclose, costsOf, prim_data, kruskal_data, isPrim,
      isKruskal, scenarioA, atol, rtol]
    norm_num
  · simp [kruskal_wins, timesOf, prim_data, kruskal_data, isPrim, isKruskal, scenarioA,
      List.countP_cons]
    norm_num
  · simp [prim_wins, timesOf, prim_data, kruskal_data, isPrim, isKruskal, scenarioA,
      List.countP_cons]
    norm_num

/-- Scenario C's record: `Vertices = 2`, `Edges = 1`. -/
def scenarioC : Record := ⟨1, Algorithm.Prim, 2, 1, 5, 9, 100⟩

/-- C4: for a record with at least two vertices the derived edge density is
exactly `Edges / (Vertices * (Vertices - 1) / 2)` taken as a genuine division:
the denominator is positive and multiplying back recovers `Edges`. -/
theorem edge_density_spec (r : Record) (h : 2 ≤ r.vertices) :
    edge_density r = (r.edges : ℚ) / ((r.vertices : ℚ) * ((r.vertices : ℚ) - 1) / 2) ∧
    0 < (r.vertices : ℚ) * ((r.vertices : ℚ) - 1) / 2 ∧
    edge_density r * ((r.vertices : ℚ) * ((r.vertices : ℚ) - 1) / 2) = (r.edges : ℚ) := by
  have hv : (2 : ℚ) ≤ (r.vertices : ℚ) := by exact_mod_cast h
  have h1 : (0 : ℚ) < (r.vertices : ℚ) := by linarith
  have h2 : (0 : ℚ) < (r.vertices : ℚ) - 1 := by linarith
  have hpos : 0 < (r.vertices : ℚ) * ((r.vertices : ℚ) - 1) / 2 := by
    apply div_pos (mul_pos h1 h2)
    norm_num
  refine ⟨rfl, hpos, ?_⟩
  rw [edge_density]
  exact div_mul_cancel₀ _ (ne_of_gt hpos)

/-- Witness for C4 at Scenario C: `Vertices = 2`, `Edges = 1` gives edge
density exactly `1`. -/
theorem edge_density_spec_witness :
    2 ≤ scenarioC.vertices ∧
      (edge_density scenarioC =
        (scenarioC.edges : ℚ) / ((scenarioC.vertices : ℚ) * ((scenarioC.vertices : ℚ) - 1) / 2) ∧
       0 < (scenarioC.vertices : ℚ) * ((scenarioC.vertices : ℚ) - 1) / 2 ∧
       edge_density scenarioC *
         ((scenarioC.vertices : ℚ) * ((scenarioC.vertices : ℚ) - 1) / 2) =
           (scenarioC.edges : ℚ)) ∧
      edge_density scenarioC = 1 :=
  ⟨by decide, edge_density_spec scenarioC (by decide),
   by norm_num [edge_density, scenarioC]⟩

lemma isclose_self (a : ℚ) : isclose a a = true := by
  simp only [isclose, decide_eq_true_eq, sub_self, abs_zero]
  have : (0 : ℚ) ≤ rtol * |a| := by
    apply mul_nonneg _ (abs_nonneg a)
    norm_num [rtol]
  norm_num [atol]
  linarith

lemma allclose_self (a : List ℚ) : allclose a a = true := by
  induction a with
  | nil => rfl
  | cons x t ih =>
    simp only [allclose, List.zip_cons_cons, List.all_cons, isclose_self, Bool.true_and]
    exact ih

/-- C5: the cost-equality verdict is tolerance-based, not exact equality.
Identical aligned sequences always verify as a match; a single aligned pair
beyond the `atol + rtol * |b|` envelope makes the verdict a mismatch; and the
figure annotation (line 102) and the summary writer (line 285) apply the very
same `np.allclose` comparison to their cost columns. -/
theorem cost_check_tolerance (df : List Record) (a b : List ℚ)
    (hlen : a.length = b.length) :
    (a = b → allclose a b = true) ∧
    (∀ i : Nat, ∀ hia : i < a.length, ∀ hib : i < b.length,
      isclose (a.get ⟨i, hia⟩) (b.get ⟨i, hib⟩) = false → allclose a b = false) ∧
    mst_cost_verification_match df =
      allclose (costsOf (sort_values (prim_data df)))
        (costsOf (sort_values (kruskal_data df))) ∧
    costs_match df = allclose (costsOf (prim_data df)) (costsOf (kruskal_data df)) := by
  refine ⟨?_, ?_, rfl, rfl⟩
  · rintro rfl
    exact allclose_self a
  · intro i hia hib hbad
    rw [allclose, List.all_eq_false]
    have hi : i < (a.zip b).length := by
      rw [List.length_zip]
      exact lt_min hia hib
    refine ⟨(a.zip b).get ⟨i, hi⟩, List.get_mem _ _ _, ?_⟩
    have hget : (a.zip b).get ⟨i, hi⟩ = (a.get ⟨i, hia⟩, b.get ⟨i, hib⟩) := by
      simp [List.get_eq_getElem, List.getElem_zip]
    rw [hget]
    show ¬ (isclose (a.get ⟨i, hia⟩) (b.get ⟨i, hib⟩) = true)
    rw [hbad]
    simp

/-- Witness for C5: two singleton cost columns on the empty dataset. -/
theorem cost_check_tolerance_witness :
    ([(1 : ℚ)].length = [(1 : ℚ)].length) ∧
      (([(1 : ℚ)] = [(1 : ℚ)] → allclose [(1 : ℚ)] [(1 : ℚ)] = true) ∧
       (∀ i : Nat, ∀ hia : i < [(1 : ℚ)].length, ∀ hib : i < [(1 : ℚ)].length,
         isclose ([(1 : ℚ)].get ⟨i, hia⟩) ([(1 : ℚ)].get ⟨i, hib⟩) = false →
           allclose [(1 : ℚ)] [(1 : ℚ)] = false) ∧
       mst_cost_verification_match [] =
         allclose (costsOf (sort_values (prim_data [])))
           (costsOf (sort_values (kruskal_data []))) ∧
       costs_match [] = allclose (costsOf (prim_data [])) (costsOf (kruskal_data []))) :=
  ⟨rfl, cost_check_tolerance [] [(1 : ℚ)] [(1 : ℚ)] rfl⟩

lemma countP_tri (l : List (ℚ × ℚ)) :
    l.countP (fun p => decide (p.1 < p.2)) + l.countP (fun p => decide (p.2 < p.1))
      + l.countP (fun p => decide (p.1 = p.2)) = l.length := by
  induction l with
  | nil => rfl
  | cons x t ih =>
    rcases lt_trichotomy x.1 x.2 with h | h | h
    · simp only [List.countP_cons, List.length_cons, decide_eq_true_eq]
      simp [h, h.ne, not_lt.mpr h.le]
      omega
    · simp only [List.countP_cons, List.length_cons, decide_eq_true_eq]
      simp [h, not_lt.mpr h.le, not_lt.mpr h.ge]
      omega
    · simp only [List.countP_cons, List.length_cons, decide_eq_true_eq]
      simp [h, h.ne', not_lt.mpr h.le]
      omega

lemma kruskal_wins_swap (df : List Record) :
    kruskal_wins df = ((timesOf (prim_data df)).zip (timesOf (kruskal_data df))).countP
      (fun p => decide (p.2 < p.1)) := by
  rw [kruskal_wins, ← List.zip_swap, List.countP_map]
  rfl

/-- C6: with equally many Prim and Kruskal records, the win counts satisfy
`prim_wins + kruskal_wins + ties <= total_graphs`, with equality of
`prim_wins + kruskal_wins` and `total_graphs` when no aligned pair of times
is exactly equal. -/
theorem win_count_invariant (df : List Record)
    (h : (prim_data df).length = (kruskal_data df).length) :
    prim_wins df + kruskal_wins df + time_ties df ≤ total_graphs df ∧
    (time_ties df = 0 → prim_wins df + kruskal_wins df = total_graphs df) := by
  have hz : ((timesOf (prim_data df)).zip (timesOf (kruskal_data df))).length
      = total_graphs df := by
    rw [List.length_zip]
    simp [timesOf, total_graphs, h]
  have htri : prim_wins df
      + ((timesOf (prim_data df)).zip (timesOf (kruskal_data df))).countP
          (fun p => decide (p.2 < p.1))
      + time_ties df = total_graphs df := by
    rw [← hz]
    exact countP_tri _
  rw [kruskal_wins_swap]
  constructor
  · omega
  · intro ht
    omega

/-- Witness for C6 at Scenario A. -/
theorem win_count_invariant_witness :
    (prim_data scenarioA).length = (kruskal_data scenarioA).length ∧
      (prim_wins scenarioA + kruskal_wins scenarioA + time_ties scenarioA ≤
        total_graphs scenarioA ∧
       (time_ties scenarioA = 0 →
         prim_wins scenarioA + kruskal_wins scenarioA = total_graphs scenarioA)) :=
  ⟨by decide, win_count_invariant scenarioA (by decide)⟩

/-- C7: for every failed read (missing, unreadable or unparseable file) the
loader yields no dataset and emits the failure diagnostic, and `main` returns
before invoking any report generator, so no artifact file is written. -/
theorem load_failure_no_artifacts (e : String) :
    (load_csv_data (LoadResult.failure e)).1 = none ∧
    (load_csv_data (LoadResult.failure e)).2 = "✗ Error loading: " ++ e ∧
    main_artifacts (LoadResult.failure e) = [] :=
  ⟨rfl, rfl, rfl⟩

/-- Strict key order on records, used to show two equally sorted permutations
with distinct keys coincide. -/
def vertLt (a b : Record) : Prop := a.vertices < b.vertices

instance : IsAntisymm Record vertLt := ⟨fun _ _ h1 h2 => absurd h2 (lt_asymm h1)⟩

lemma pairwise_vertLt {m : List Record}
    (hnd : (m.map (fun r => r.vertices)).Nodup) (hle : m.Pairwise vertLe) :
    m.Pairwise vertLt := by
  have hne : m.Pairwise (fun a b => a.vertices ≠ b.vertices) := List.pairwise_map.mp hnd
  exact (hle.and hne).imp (fun h => lt_of_le_of_ne h.1 h.2)

lemma sort_values_perm_eq {l1 l2 : List Record} (hp : l1.Perm l2)
    (hn : (l1.map (fun r => r.vertices)).Nodup) :
    sort_values l1 = sort_values l2 := by
  have hp1 : (sort_values l1).Perm l1 := List.perm_insertionSort vertLe l1
  have hp2 : (sort_values l2).Perm l2 := List.perm_insertionSort vertLe l2
  have hperm : (sort_values l1).Perm (sort_values l2) := hp1.trans (hp.trans hp2.symm)
  have hn1 : ((sort_values l1).map (fun r => r.vertices)).Nodup :=
    ((hp1.map (fun r => r.vertices)).symm).nodup hn
  have hn2 : ((sort_values l2).map (fun r => r.vertices)).Nodup :=
    (hperm.map (fun r => r.vertices)).nodup hn1
  exact List.eq_of_perm_of_sorted hperm
    (pairwise_vertLt hn1 (List.sorted_insertionSort vertLe l1))
    (pairwise_vertLt hn2 (List.sorted_insertionSort vertLe l2))

/-- C8 amended: every per-algorithm line series is ordered by ascending
`Vertices`, and so is the vertex axis of the performance-ratio bars; the
series is independent of the input row order whenever the algorithm's vertex
counts are pairwise distinct (with duplicated vertex counts the order among
tied rows follows the input order, see the counterexample). -/
theorem series_sorted_and_invariant (df df' : List Record) (a : Algorithm)
    (hp : df.Perm df')
    (hn : ((algData df a).map (fun r => r.vertices)).Nodup) :
    ((timeSeries df a).map Prod.fst).Pairwise (fun x y => x ≤ y) ∧
    timeSeries df a = timeSeries df' a ∧
    (∀ vs rs, plot_performance_ratio df = Except.ok (vs, rs) →
      vs.Pairwise (fun x y => x ≤ y)) := by
  refine ⟨?_, ?_, ?_⟩
  · rw [timeSeries, List.map_map]
    exact List.pairwise_map.mpr
      ((List.sorted_insertionSort vertLe (algData df a)).imp (fun h => h))
  · have hfa : (algData df a).Perm (algData df' a) := by
      cases a
      · exact hp.filter isPrim
      · exact hp.filter isKruskal
    rw [timeSeries, timeSeries, sort_values_perm_eq hfa hn]
  · intro vs rs h
    unfold plot_performance_ratio at h
    rcases hloop : ratioLoop df (graphKeys df) with e | pairs
    · rw [hloop] at h
      cases h
    · rw [hloop] at h
      have hsorted : (sortPairs pairs).Pairwise pairLe :=
        List.sorted_insertionSort pairLe pairs
      rcases hsp : sortPairs pairs with _ | ⟨p, ps⟩
      · simp only [hsp] at h
        simp at h
      · simp only [hsp] at h hsorted
        cases h
        exact List.pairwise_map.mpr (hsorted.imp (fun hpl => by
          rcases hpl with h1 | ⟨h1, -⟩
          · exact le_of_lt h1
          · exact le_of_eq h1))

/-- Two Prim-only rows with distinct vertex counts, in both input orders. -/
def dfSwap1 : List Record :=
  [⟨1, Algorithm.Prim, 10, 5, 1, 10, 30⟩,
   ⟨2, Algorithm.Prim, 20, 5, 2, 11, 31⟩]

/-- The same two rows in the opposite input order. -/
def dfSwap2 : List Record :=
  [⟨2, Algorithm.Prim, 20, 5, 2, 11, 31⟩,
   ⟨1, Algorithm.Prim, 10, 5, 1, 10, 30⟩]

/-- Witness for the amended C8 at a two-row permutation with distinct vertex
counts. -/
theorem series_sorted_and_invariant_witness :
    dfSwap1.Perm dfSwap2 ∧
      ((algData dfSwap1 Algorithm.Prim).map (fun r => r.vertices)).Nodup ∧
      (((timeSeries dfSwap1 Algorithm.Prim).map Prod.fst).Pairwise (fun x y => x ≤ y) ∧
       timeSeries dfSwap1 Algorithm.Prim = timeSeries dfSwap2 Algorithm.Prim ∧
       (∀ vs rs, plot_performance_ratio dfSwap1 = Except.ok (vs, rs) →
         vs.Pairwise (fun x y => x ≤ y))) :=
  ⟨List.Perm.swap _ _ _, by decide,
   series_sorted_and_invariant dfSwap1 dfSwap2 Algorithm.Prim
     (List.Perm.swap _ _ _) (by decide)⟩

/-- C8 as stated is false: with two graphs sharing the vertex count 10, the
sort by `Vertices` leaves the tied rows in input order, so permuting the
input rows changes the plotted series even though both orders are sorted by
ascending `Vertices`. -/
theorem tie_order_not_permutation_invariant :
    dfTie1.Perm dfTie2 ∧
      timeSeries dfTie1 Algorithm.Prim ≠ timeSeries dfTie2 Algorithm.Prim := by
  constructor
  · exact List.Perm.swap _ _ _
  · simp [timeSeries, sort_values, algData, prim_data, dfTie1, dfTie2, isPrim,
      List.insertionSort, List.orderedInsert, vertLe]

lemma zip_countP_eq_find_countP (q : ℚ → ℚ → Bool) :
    ∀ ps ks : List Record,
      ps.map (fun r => r.graph) = ks.map (fun r => r.graph) →
      (ks.map (fun r => r.graph)).Nodup →
      ((ps.map (fun r => r.time)).zip (ks.map (fun r => r.time))).countP
          (fun p => q p.1 p.2)
        = ps.countP (fun r =>
            match ks.find? (fun s => s.graph == r.graph) with
            | some s => q r.time s.time
            | none => false) := by
  intro ps
  induction ps with
  | nil => intro ks _ _; simp
  | cons p pt ih =>
    intro ks h hn
    cases ks with
    | nil => simp at h
    | cons k kt =>
      simp only [List.map_cons, List.cons.injEq] at h
      obtain ⟨hg, ht⟩ := h
      have hfind : (k :: kt).find? (fun s => s.graph == p.graph) = some k := by
        rw [List.find?_cons]
        have : (k.graph == p.graph) = true := by
          rw [hg]
          exact beq_self_eq_true _
        rw [this]
      have hnotin : ∀ r ∈ pt, (k :: kt).find? (fun s => s.graph == r.graph)
          = kt.find? (fun s => s.graph == r.graph) := by
        intro r hr
        have hmem : r.graph ∈ kt.map (fun s => s.graph) :=
          ht ▸ List.mem_map_of_mem (fun s => s.graph) hr
        have hk_notin : k.graph ∉ kt.map (fun s => s.graph) := (List.nodup_cons.mp hn).1
        have hrk : (k.graph == r.graph) = false := by
          rw [beq_eq_false_iff_ne]
          intro hEq
          exact hk_notin (hEq ▸ hmem)
        rw [List.find?_cons, hrk]
      have htail := ih kt ht (List.nodup_cons.mp hn).2
      have hcongr : pt.countP (fun r =>
          match (k :: kt).find? (fun s => s.graph == r.graph) with
          | some s => q r.time s.time
          | none => false)
        = pt.countP (fun r =>
            match kt.find? (fun s => s.graph == r.graph) with
            | some s => q r.time s.time
            | none => false) :=
        List.countP_congr (fun r hr => by rw [hnotin r hr])
      rw [List.map_cons, List.map_cons, List.zip_cons_cons, List.countP_cons,
        List.countP_cons, htail, hfind, ← hcongr]

/-- C9: the summary's win counts compare the two time arrays elementwise in
the row order of the extracted sub-frames; whenever both sub-frames list the
graphs in the same order (and graphs are not repeated), this positional
pairing coincides with the per-graph counts of a join keyed by `Graph`
identity. -/
theorem win_counts_positional_join (df : List Record)
    (horder : (prim_data df).map (fun r => r.graph)
      = (kruskal_data df).map (fun r => r.graph))
    (hnodup : ((kruskal_data df).map (fun r => r.graph)).Nodup) :
    prim_wins df = prim_wins_by_graph df ∧
    kruskal_wins df = kruskal_wins_by_graph df := by
  constructor
  · exact zip_countP_eq_find_countP (fun x y => decide (x < y))
      (prim_data df) (kruskal_data df) horder hnodup
  · have hnodup' : ((prim_data df).map (fun r => r.graph)).Nodup := by
      rw [horder]
      exact hnodup
    exact zip_countP_eq_find_countP (fun x y => decide (x < y))
      (kruskal_data df) (prim_data df) horder.symm hnodup'

/-- Witness for C9 at Scenario A. -/
theorem win_counts_positional_join_witness :
    (prim_data scenarioA).map (fun r => r.graph)
        = (kruskal_data scenarioA).map (fun r => r.graph) ∧
      ((kruskal_data scenarioA).map (fun r => r.graph)).Nodup ∧
      (prim_wins scenarioA = prim_wins_by_graph scenarioA ∧
       kruskal_wins scenarioA = kruskal_wins_by_graph scenarioA) :=
  ⟨by decide, by decide, win_counts_positional_join scenarioA (by decide) (by decide)⟩
